import Mathlib

/-!
Verification of Shortcut-Composer core algorithms.

Shallow embedding of the relevant parts of the plugin:
* the configuration-field write machinery (`config_system/field_base.py`,
  `composer_utils/config/global_config.py`),
* the double-axis mouse tracker (`templates/mouse_tracker_utils/axis_trackers.py`),
* the pie manager and label animator (`templates/pie_menu_utils/pie_manager.py`),
* the preset and undo controllers (`core_components/controllers/*.py`).

Python machine ints are unbounded, so `Int`/`Rat` model them directly.
-/

/-! ## Python dynamic values

`FieldBase.write` performs a runtime `isinstance` check against the type of
the field's default, so values must carry their Python runtime type. -/

/-- Runtime type tag of a Python value relevant to the config system. -/
inductive PyType
  | int
  | float
  | str
  | bool
  deriving DecidableEq, Repr

/-- A Python value of one of the four config-relevant types. -/
inductive PyValue
  | int (n : ℤ)
  | float (q : ℚ)
  | str (s : String)
  | bool (b : Bool)
  deriving DecidableEq, Repr

/-- Runtime type of a value, as Python's `type()` reports it. -/
def PyValue.typeOf : PyValue → PyType
  | .int _ => .int
  | .float _ => .float
  | .str _ => .str
  | .bool _ => .bool

/-- Python `isinstance(v, t)`: exact type, except `bool` is a subclass of
`int`. -/
def pyIsinstance (v : PyValue) (t : PyType) : Bool :=
  v.typeOf = t || (v.typeOf = .bool && t = .int)

/-- Numeric content of a value, used by Python `==` which identifies
`True == 1`, `1 == 1.0`, etc. Strings have no numeric content. -/
def PyValue.toRat? : PyValue → Option ℚ
  | .int n => some (n : ℚ)
  | .float q => some q
  | .bool b => some (if b then 1 else 0)
  | .str _ => none

/-- Python `==` on config values: numeric types compare by value across
tags, strings compare as strings, numeric vs string is `False`. -/
def pyEq (a b : PyValue) : Bool :=
  match a.toRat?, b.toRat? with
  | some x, some y => x = y
  | _, _ =>
    match a, b with
    | .str s, .str t => s = t
    | _, _ => false

/-- Python `str()` of a config value (serialization used by the parsers). -/
def pyStr : PyValue → String
  | .int n => toString n
  | .float q => toString q
  | .str s => s
  | .bool b => cond b "True" "False"

/-! ## The key-value settings store

`Krita.read_setting / write_setting`: string-keyed `(group, name)` pairs
holding string values. Modelled as an association list. -/

/-- The host's string-keyed settings store. -/
abbrev Store : Type := List ((String × String) × String)

/-- `Krita.read_setting(group, name)`: the raw string or `None`. -/
def read_setting (store : Store) (group name : String) : Option String :=
  (store.find? (fun e => e.1 = (group, name))).map (·.2)

/-- `Krita.write_setting(group, name, value)`: overwrite or append. -/
def write_setting (store : Store) (group name value : String) : Store :=
  match store with
  | [] => [((group, name), value)]
  | e :: rest =>
    if e.1 = (group, name) then ((group, name), value) :: rest
    else e :: write_setting rest group name value

/-! ## Configuration fields (`config_system/field_base.py`) -/

/-- A pluggable per-type parser (`config_system/parsers.py`): converts the
field's value type to/from the stored string. -/
structure Parser where
  parse_to : String → Option PyValue
  format_to : PyValue → String

/-- Decimal digit value of a character, `none` otherwise. -/
def digitVal (c : Char) : Option ℕ :=
  if c = '0' then some 0 else if c = '1' then some 1
  else if c = '2' then some 2 else if c = '3' then some 3
  else if c = '4' then some 4 else if c = '5' then some 5
  else if c = '6' then some 6 else if c = '7' then some 7
  else if c = '8' then some 8 else if c = '9' then some 9 else none

/-- Accumulate decimal digits left to right. -/
def parseNatAux : List Char → ℕ → Option ℕ
  | [], acc => some acc
  | c :: rest, acc =>
    match digitVal c with
    | some d => parseNatAux rest (acc * 10 + d)
    | none => none

/-- Python `int(raw)` on a plain decimal string, `none` on anything
malformed. -/
def parseInt (s : String) : Option ℤ :=
  match s.data with
  | [] => none
  | '-' :: rest =>
    if rest.isEmpty then none
    else (parseNatAux rest 0).map (fun n => -(n : ℤ))
  | cs => (parseNatAux cs 0).map (fun n => (n : ℤ))

/-- Modelled from the spec: `BasicParser(int)` (the concrete parsers of
`config_system/parsers.py` are not under `src/`): serializes with `str()`
and parses the string back to an `int`. -/
def intParser : Parser where
  parse_to s := (parseInt s).map PyValue.int
  format_to := pyStr

/-- Modelled from the spec: `BoolParser` — serializes a `bool` with `str()`
and parses `"True"/"False"` back. -/
def boolParser : Parser where
  parse_to s := if s = "True" then some (.bool true)
    else if s = "False" then some (.bool false) else none
  format_to := pyStr

/-- A configuration field: a `(group, name, default, parser)` tuple mapping
to a single string-valued entry of the settings store (`FieldBase`). -/
structure FieldBase where
  config_group : String
  name : String
  default : PyValue
  parser : Parser

namespace FieldBase

/-- Modelled from the spec: `read` of the concrete `FieldBase` subclasses
(not under `src/`): return the stored raw value parsed to the field type;
when nothing is stored, or the entry is malformed, fail soft to the
field's default. -/
def read (f : FieldBase) (store : Store) : PyValue :=
  match read_setting store f.config_group f.name with
  | none => f.default
  | some raw => (f.parser.parse_to raw).getD f.default

/-- `FieldBase._to_string`: convert a value of field type to string. -/
def to_string (f : FieldBase) (v : PyValue) : String :=
  f.parser.format_to v

/-- `FieldBase._is_write_redundant`: writing is unnecessary when the value
equals the one read from the store, or nothing is stored and the value is
the default. -/
def is_write_redundant (f : FieldBase) (v : PyValue) (store : Store) : Bool :=
  if pyEq (f.read store) v then true
  else
    match read_setting store f.config_group f.name with
    | none => pyEq v f.default
    | some _ => false

/-- Outcome of one `FieldBase.write` call: the resulting store, the log of
store writes performed, and whether the registered callbacks were run. -/
structure WriteResult where
  store : Store
  writes : List ((String × String) × String)
  callbacks_run : Bool
  deriving DecidableEq, Repr

/-- `FieldBase.write`: raise `TypeError` when the value is not an instance
of the default's type; skip redundant writes; otherwise write the
serialized value and run every registered callback. -/
def write (f : FieldBase) (v : PyValue) (store : Store) :
    Except String WriteResult :=
  if ¬ pyIsinstance v f.default.typeOf then
    .error ("TypeError: " ++ pyStr v ++ " not of type")
  else if f.is_write_redundant v store then
    .ok ⟨store, [], false⟩
  else
    .ok ⟨write_setting store f.config_group f.name (f.to_string v),
      [((f.config_group, f.name), f.to_string v)], true⟩

/-- `FieldBase.reset_default`: write the default value. -/
def reset_default (f : FieldBase) (store : Store) : Except String WriteResult :=
  f.write f.default store

end FieldBase

/-! ## `Config` (`composer_utils/config/global_config.py`) -/

/-- `Config.reset_defaults`: sweep over every known field, resetting each
to its default; collects the accumulated store and the full write log. -/
def reset_defaults (fields : List FieldBase) (store : Store) :
    Store × List ((String × String) × String) :=
  match fields with
  | [] => (store, [])
  | f :: rest =>
    match f.reset_default store with
    | .ok r =>
      let (s', log) := reset_defaults rest r.store
      (s', r.writes ++ log)
    | .error _ =>
      -- unreachable: `write(default)` always passes the isinstance check
      reset_defaults rest store

/-! ## Python `round` and `Config.get_sleep_time` -/

/-- Python 3's `round` to an integer: nearest, ties to even. -/
def pyRound (q : ℚ) : ℤ :=
  if q - ⌊q⌋ < 1/2 then ⌊q⌋
  else if q - ⌊q⌋ > 1/2 then ⌊q⌋ + 1
  else if ⌊q⌋ % 2 = 0 then ⌊q⌋ else ⌊q⌋ + 1

/-- `Config.get_sleep_time`: `round(1000/fps_limit) if fps_limit else 1`,
where `fps_limit` is the value read from the FPS-limit field. -/
def get_sleep_time (fps_limit : ℤ) : ℤ :=
  if fps_limit ≠ 0 then pyRound ((1000 : ℚ) / (fps_limit : ℚ)) else 1

/-! ## `DoubleAxisTracker` (`templates/mouse_tracker_utils/axis_trackers.py`)

The handlers and the decision timer are modelled by run/stop flags; a
decision-timer tick carries the comparator's `delta_x`/`delta_y` (absolute
offsets of the cursor from the position recorded at press time). -/

namespace DoubleAxisTracker

/-- Run-state of the tracker: the decision timer, the two slider handlers
and whether the key is currently pressed. -/
structure State where
  timer_active : Bool
  horizontal_running : Bool
  vertical_running : Bool
  pressed : Bool
  deriving DecidableEq, Repr

/-- State before the first press: nothing runs. -/
def initial : State := ⟨false, false, false, false⟩

/-- An observable event of one tracker: key press, a decision-timer tick
with the comparator's current deltas, or key release. -/
inductive Event
  | press
  | tick (delta_x delta_y : ℕ)
  | release
  deriving DecidableEq, Repr

/-- `on_key_press`: store a fresh comparator and start the decision
timer. -/
def on_key_press (s : State) : State :=
  { s with timer_active := true, pressed := true }

/-- `_start_after_picking_slider`: do nothing until one delta exceeds 10;
then start the handler of the dominant axis (horizontal iff
`delta_x > delta_y`) and stop the decision timer. -/
def start_after_picking_slider (s : State) (delta_x delta_y : ℕ) : State :=
  if delta_x ≤ 10 ∧ delta_y ≤ 10 then s
  else if delta_x > delta_y then
    { s with horizontal_running := true, timer_active := false }
  else
    { s with vertical_running := true, timer_active := false }

/-- `on_every_key_release`: stop both handlers. The decision timer is not
touched here; it is stopped only inside `start_after_picking_slider`. -/
def on_every_key_release (s : State) : State :=
  { s with
    horizontal_running := false
    vertical_running := false
    pressed := false }

/-- One event of the tracker; a timer tick fires only while the timer is
active. -/
def step (s : State) : Event → State
  | .press => on_key_press s
  | .tick dx dy => if s.timer_active then start_after_picking_slider s dx dy
      else s
  | .release => on_every_key_release s

/-- A whole observed trace. -/
def run (s : State) (events : List Event) : State :=
  events.foldl step s

end DoubleAxisTracker

/-! ## Pie widget, `PieManager` and `LabelAnimator`
(`templates/pie_menu_utils/pie_manager.py`) -/

/-- A pie label: a stable identity plus its `activation_progress.value`. -/
structure AnimLabel where
  id : ℕ
  value : ℚ
  deriving DecidableEq, Repr

/-- The observable part of `PieWidget`: visibility, the currently active
label (by identity), the deadzone radius and the labels of
`label_holder`. -/
structure PieWidget where
  visible : Bool
  active : Option ℕ
  deadzone : ℚ
  labels : List AnimLabel
  deriving DecidableEq, Repr

namespace ActivationProgress

/-- Modelled from the spec: `ActivationProgress.up` (the class is not under
`src/`): one monotonic per-tick step of size `s` toward `1`, clamped. -/
def up (s v : ℚ) : ℚ := min (v + s) 1

/-- Modelled from the spec: `ActivationProgress.down`: one per-tick step of
size `s` toward `0`, clamped. -/
def down (s v : ℚ) : ℚ := max (v - s) 0

end ActivationProgress

namespace LabelAnimator

/-- The per-label body of `LabelAnimator._update`: the label equal to the
widget's active label steps up, every other label steps down. -/
def label_step (s : ℚ) (active : Option ℕ) (l : AnimLabel) : AnimLabel :=
  if active = some l.id then { l with value := ActivationProgress.up s l.value }
  else { l with value := ActivationProgress.down s l.value }

/-- `LabelAnimator._update`: step every label, then stop the timer unless
some label's progress is still away from both bounds. Returns the updated
widget and whether the animator's timer is still running afterwards. -/
def update (s : ℚ) (w : PieWidget) : PieWidget × Bool :=
  let labels := w.labels.map (label_step s w.active)
  ({ w with labels := labels },
    labels.any fun l => decide ¬(l.value = 0 ∨ l.value = 1))

/-- `n` consecutive animator ticks. -/
def run (s : ℚ) (w : PieWidget) : ℕ → PieWidget
  | 0 => w
  | n + 1 => (update s (run s w n)).1

end LabelAnimator

namespace PieManager

/-- Modelled from the spec: `CirclePoints.distance` (not under `src/`) is
the Euclidean distance of the cursor from the center; the manager uses it
only in the comparison `distance < deadzone`, embedded here as the
equivalent comparison of squares. -/
def distSq (a b : ℚ × ℚ) : ℚ := (a.1 - b.1) ^ 2 + (a.2 - b.2) ^ 2

/-- `PieManager._set_active_label`: mark the label active and start the
animator, but only when it actually changed. Returns the widget and
whether the animator was started. -/
def set_active_label (w : PieWidget) (l : Option ℕ) : PieWidget × Bool :=
  if w.active ≠ l then ({ w with active := l }, true) else (w, false)

/-- `PieManager.stop` (with the default `hide=True`): stop the tracking
timer, reset every label's activation progress and hide the widget. -/
def stop (w : PieWidget) : PieWidget :=
  { w with
    labels := w.labels.map (fun l => { l with value := 0 })
    visible := false }

/-- Result of one `PieManager._handle_cursor` tick: the widget, whether
the tracking timer is still running, and whether the animator was
started. -/
structure HandleResult where
  widget : PieWidget
  timer_running : Bool
  animator_started : Bool
  deriving DecidableEq, Repr

/-- `PieManager._handle_cursor`: self-terminate when the widget got hidden
externally; inside the deadzone activate no label; otherwise activate the
label whose angular sector holds the cursor. `angle_from_point` and
`on_angle` stand for the missing `CirclePoints`/`WidgetHolder` geometry. -/
def handle_cursor (w : PieWidget) (center cursor : ℚ × ℚ)
    (angle_from_point : ℚ × ℚ → ℚ) (on_angle : ℚ → ℕ) : HandleResult :=
  if w.visible = false then
    ⟨stop w, false, false⟩
  else if distSq cursor center < w.deadzone ^ 2 then
    let (w', started) := set_active_label w none
    ⟨w', true, started⟩
  else
    let (w', started) :=
      set_active_label w (some (on_angle (angle_from_point cursor)))
    ⟨w', true, started⟩

end PieManager

/-! ## Controllers (`core_components/controllers/*.py`) -/

/-- An opaque host image (`QImage`). -/
structure QImage where
  data : ℕ
  deriving DecidableEq, Repr

/-- An opaque host pixmap (`QPixmap`). -/
structure QPixmap where
  data : ℕ
  deriving DecidableEq, Repr

/-- `QPixmap.fromImage`. -/
def QPixmap.fromImage (i : QImage) : QPixmap := ⟨i.data⟩

/-- A host brush preset as exposed by `Krita.get_presets()`: only its
`image()` matters here. -/
structure KritaPreset where
  image : QImage
  deriving DecidableEq, Repr

namespace PresetController

/-- `PresetController.get_label`: look the preset name up in the host's
catalog; a missing name (Python `KeyError`) yields `None`, a present one
yields the preset's image as a pixmap. -/
def get_label (presets : List (String × KritaPreset)) (value : String) :
    Option QPixmap :=
  match (presets.find? (fun p => p.1 = value)).map (·.2) with
  | none => none
  | some preset => some (QPixmap.fromImage preset.image)

end PresetController

namespace UndoController

/-- `UndoController.set_value`: round the incoming value; when it differs
from the remembered undo-stack position, trigger exactly one host undo or
redo action and move the position by one toward it. Returns the new
position and the host actions triggered. -/
def set_value (value : ℚ) (state : ℤ) : ℤ × List String :=
  let v := pyRound value
  if v = state then (state, [])
  else if v > state then (state + 1, ["edit_redo"])
  else (state - 1, ["edit_undo"])

end UndoController

/-! ## Helper lemmas -/

/-- Every value is an instance of its own runtime type. -/
theorem pyIsinstance_self (v : PyValue) : pyIsinstance v v.typeOf = true := by
  cases v <;> simp [pyIsinstance, PyValue.typeOf]

/-- Python `==` is reflexive on config values. -/
theorem pyEq_self (v : PyValue) : pyEq v v = true := by
  cases v <;> simp [pyEq, PyValue.toRat?]

/-- The redundancy test, written as one boolean formula. -/
theorem FieldBase.is_write_redundant_eq (f : FieldBase) (v : PyValue)
    (store : Store) :
    f.is_write_redundant v store =
      (pyEq (f.read store) v ||
        ((read_setting store f.config_group f.name).isNone &&
          pyEq v f.default)) := by
  unfold is_write_redundant
  cases h : pyEq (f.read store) v
  · simp only [h, if_neg Bool.false_ne_true, Bool.false_or]
    cases read_setting store f.config_group f.name <;> simp
  · simp [h]

/-- `read_setting` on a nonempty store: head entry or the rest. -/
theorem read_setting_cons (e : (String × String) × String) (rest : Store)
    (g n : String) :
    read_setting (e :: rest) g n =
      if e.1 = (g, n) then some e.2 else read_setting rest g n := by
  by_cases h : e.1 = (g, n)
  · rw [if_pos h]
    unfold read_setting
    rw [List.find?_cons_of_pos _ (by simpa using h)]
    rfl
  · rw [if_neg h]
    unfold read_setting
    rw [List.find?_cons_of_neg _ (by simpa using h)]

/-- Reading back the key just written yields the written value. -/
theorem read_setting_write_setting_self (store : Store) (g n v : String) :
    read_setting (write_setting store g n v) g n = some v := by
  induction store with
  | nil => simp [write_setting, read_setting_cons, read_setting]
  | cons e rest ih =>
    by_cases h : e.1 = (g, n)
    · simp [write_setting, h, read_setting_cons]
    · simpa [write_setting, h, read_setting_cons] using ih

/-- Writing one key leaves every other key's raw value unchanged. -/
theorem read_setting_write_setting_other (store : Store) (g n g' n' v : String)
    (h : (g', n') ≠ (g, n)) :
    read_setting (write_setting store g' n' v) g n =
      read_setting store g n := by
  induction store with
  | nil => simp [write_setting, read_setting_cons, read_setting, h]
  | cons e rest ih =>
    by_cases he : e.1 = (g', n')
    · rw [write_setting, if_pos he, read_setting_cons, read_setting_cons,
        if_neg (by simpa using h), he, if_neg (by simpa using h)]
    · rw [write_setting, if_neg he, read_setting_cons, read_setting_cons]
      by_cases hgn : e.1 = (g, n)
      · rw [if_pos hgn, if_pos hgn]
      · rw [if_neg hgn, if_neg hgn, ih]

/-- `reset_default` never raises: the default always passes the
`isinstance` check against its own type. -/
theorem FieldBase.reset_default_eq (f : FieldBase) (store : Store) :
    f.reset_default store =
      .ok (if f.is_write_redundant f.default store then ⟨store, [], false⟩
        else ⟨write_setting store f.config_group f.name
            (f.to_string f.default),
          [((f.config_group, f.name), f.to_string f.default)], true⟩) := by
  unfold reset_default write
  simp only [pyIsinstance_self, Bool.true_eq_false, not_true_eq_false,
    if_false]
  split <;> rfl

/-! ## Sample concrete objects used by the closed witness theorems -/

/-- The `Config.FPS_LIMIT` field: `ImmutableField("FPS limit", 60)`. -/
def fpsField : FieldBase := ⟨"ShortcutComposer", "FPS limit", .int 60, intParser⟩

/-- A sample boolean field. -/
def boolField : FieldBase := ⟨"ShortcutComposer", "Sample flag", .bool true, boolParser⟩

/-! ## Claim theorems -/

/-- C2: for every configuration field and every value of the field's
declared type, `FieldBase.write(value)` performs zero store writes and
invokes no registered change callbacks when the value currently read from
the store equals the new value (Python `==`), or when no raw value is
stored and the new value equals the field's default; in every other case
it performs exactly one store write (of the serialized value, under the
field's key) followed by running all registered callbacks. -/
theorem FieldBase_write_redundancy (f : FieldBase) (v : PyValue)
    (store : Store) (hty : pyIsinstance v f.default.typeOf = true) :
    ((pyEq (f.read store) v = true ∨
        (read_setting store f.config_group f.name = none ∧
          pyEq v f.default = true)) →
      f.write v store = .ok ⟨store, [], false⟩) ∧
    ((pyEq (f.read store) v = false ∧
        (read_setting store f.config_group f.name ≠ none ∨
          pyEq v f.default = false)) →
      f.write v store =
        .ok ⟨write_setting store f.config_group f.name (f.to_string v),
          [((f.config_group, f.name), f.to_string v)], true⟩) := by
  have hred := FieldBase.is_write_redundant_eq f v store
  constructor
  · intro h
    have hr : f.is_write_redundant v store = true := by
      rw [hred]
      rcases h with h | ⟨h1, h2⟩
      · simp [h]
      · simp [h1, h2]
    unfold FieldBase.write
    simp [hty, hr]
  · intro ⟨h1, h2⟩
    have hr : f.is_write_redundant v store = false := by
      rw [hred, h1, Bool.false_or]
      rcases h2 with h2 | h2
      · cases hraw : read_setting store f.config_group f.name
        · exact absurd hraw h2
        · simp [hraw]
      · simp [h2]
    unfold FieldBase.write
    simp [hty, hr]

/-- Witness for C2: on an empty store, writing 30 to the FPS-limit field
(default 60) stores `"30"` and runs the callbacks; writing the default 60
touches nothing. -/
theorem FieldBase_write_redundancy_witness :
    fpsField.write (.int 30) [] =
      .ok ⟨[(("ShortcutComposer", "FPS limit"), "30")],
        [(("ShortcutComposer", "FPS limit"), "30")], true⟩ ∧
    fpsField.write (.int 60) [] = .ok ⟨[], [], false⟩ := by
  constructor
  · exact (FieldBase_write_redundancy fpsField (.int 30) [] (by decide)).2
      (by constructor <;> [decide; exact Or.inr (by decide)])
  · exact (FieldBase_write_redundancy fpsField (.int 60) [] (by decide)).1
      (Or.inl (by decide))

/-- C6: writing a value whose runtime type is not an instance of the type
of the field's declared default raises `TypeError` immediately; the call
yields only the error, before any settings-store access, so the store is
untouched by the failed call. -/
theorem FieldBase_write_type_mismatch (f : FieldBase) (v : PyValue)
    (store : Store) (hty : pyIsinstance v f.default.typeOf = false) :
    f.write v store = .error ("TypeError: " ++ pyStr v ++ " not of type") := by
  unfold FieldBase.write
  simp [hty]

/-- Witness for C6: writing the string `"fast"` to the integer FPS-limit
field fails with a `TypeError` and no store mutation. -/
theorem FieldBase_write_type_mismatch_witness :
    fpsField.write (.str "fast") [(("a", "b"), "c")] =
      .error ("TypeError: " ++ pyStr (.str "fast") ++ " not of type") :=
  FieldBase_write_type_mismatch fpsField (.str "fast") [(("a", "b"), "c")]
    (by decide)

/-- `FieldBase.read` depends on the store only through the field's own
key. -/
theorem FieldBase.read_congr (f : FieldBase) (s1 s2 : Store)
    (h : read_setting s1 f.config_group f.name =
      read_setting s2 f.config_group f.name) :
    f.read s1 = f.read s2 := by
  unfold read
  rw [h]

/-- The sweep only mutates the keys of its own fields. -/
theorem reset_defaults_preserves_key (fields : List FieldBase)
    (store : Store) (g n : String)
    (h : ∀ f ∈ fields, (f.config_group, f.name) ≠ (g, n)) :
    read_setting (reset_defaults fields store).1 g n =
      read_setting store g n := by
  induction fields generalizing store with
  | nil => rfl
  | cons f0 rest ih =>
    have h0 : (f0.config_group, f0.name) ≠ (g, n) := h f0 (by simp)
    have hrest : ∀ f ∈ rest, (f.config_group, f.name) ≠ (g, n) :=
      fun f hf => h f (List.mem_cons_of_mem _ hf)
    by_cases hw : f0.is_write_redundant f0.default store
    · simp only [reset_defaults, FieldBase.reset_default_eq, if_pos hw]
      exact ih store hrest
    · simp only [reset_defaults, FieldBase.reset_default_eq, if_neg hw]
      rw [ih _ hrest,
        read_setting_write_setting_other _ _ _ _ _ _ h0]

/-- C3 counterexample: on an empty settings store, the
`Config.reset_defaults()` sweep over the known field `fpsField` performs
no store write at all (the write log is empty and the store stays empty),
so it is not the case that, after the sweep, a store write of the default
has been performed for every known field: `reset_default` delegates to
`write`, which skips the write as redundant when nothing is stored and
the value equals the default. -/
theorem Config_reset_defaults_counterexample :
    reset_defaults [fpsField] [] = ([], []) := by
  have hw : fpsField.is_write_redundant fpsField.default [] = true := by decide
  simp only [reset_defaults, FieldBase.reset_default_eq, hw, if_true]
  rfl

/-- C3 amended: calling `Config.reset_defaults()` brings every known
configuration field to its default: after the sweep, every field reads
back a value equal (Python `==`) to its default — the store write being
skipped for a field that already reads its default or has no stored raw
value. Hypotheses: each field's parser round-trips its default, and the
known fields have pairwise distinct store keys (as the `Config` class
fields do). -/
theorem Config_reset_defaults_reads_default (fields : List FieldBase)
    (store : Store)
    (hrt : ∀ f ∈ fields,
      f.parser.parse_to (f.parser.format_to f.default) = some f.default)
    (hkeys : fields.Pairwise
      (fun a b => (a.config_group, a.name) ≠ (b.config_group, b.name))) :
    ∀ f ∈ fields,
      pyEq (f.read (reset_defaults fields store).1) f.default = true := by
  induction fields generalizing store with
  | nil => intro f hf; cases hf
  | cons f0 rest ih =>
    have hk0 : ∀ f ∈ rest,
        (f.config_group, f.name) ≠ (f0.config_group, f0.name) :=
      fun f hf => ((List.pairwise_cons.mp hkeys).1 f hf).symm
    have hkrest := (List.pairwise_cons.mp hkeys).2
    have hrtrest : ∀ f ∈ rest,
        f.parser.parse_to (f.parser.format_to f.default) = some f.default :=
      fun f hf => hrt f (List.mem_cons_of_mem _ hf)
    intro f hf
    rcases List.mem_cons.mp hf with rfl | hf'
    · -- the head field: its key is untouched by the rest of the sweep
      by_cases hw : f.is_write_redundant f.default store
      · have hs : (reset_defaults (f :: rest) store).1 =
            (reset_defaults rest store).1 := by
          simp only [reset_defaults, FieldBase.reset_default_eq, if_pos hw]
        rw [hs, FieldBase.read_congr f _ store
          (reset_defaults_preserves_key rest store _ _ hk0)]
        rw [FieldBase.is_write_redundant_eq] at hw
        rcases Bool.or_eq_true_iff.mp hw with h | h
        · exact h
        · have hraw := (Bool.and_eq_true_iff.mp h).1
          unfold FieldBase.read
          rw [Option.isNone_iff_eq_none.mp hraw]
          exact pyEq_self f.default
      · have hs : (reset_defaults (f :: rest) store).1 =
            (reset_defaults rest
              (write_setting store f.config_group f.name
                (f.to_string f.default))).1 := by
          simp only [reset_defaults, FieldBase.reset_default_eq, if_neg hw]
        rw [hs, FieldBase.read_congr f _
            (write_setting store f.config_group f.name
              (f.to_string f.default))
            (reset_defaults_preserves_key rest _ _ _ hk0)]
        have hread : f.read (write_setting store f.config_group f.name
            (f.to_string f.default)) = f.default := by
          simp [FieldBase.read, read_setting_write_setting_self,
            FieldBase.to_string, hrt f (by simp)]
        rw [hread]
        exact pyEq_self f.default
    · -- a tail field: handled by the sweep over the rest
      by_cases hw : f0.is_write_redundant f0.default store
      · have hs : (reset_defaults (f0 :: rest) store).1 =
            (reset_defaults rest store).1 := by
          simp only [reset_defaults, FieldBase.reset_default_eq, if_pos hw]
        rw [hs]
        exact ih store hrtrest hkrest f hf'
      · have hs : (reset_defaults (f0 :: rest) store).1 =
            (reset_defaults rest
              (write_setting store f0.config_group f0.name
                (f0.to_string f0.default))).1 := by
          simp only [reset_defaults, FieldBase.reset_default_eq, if_neg hw]
        rw [hs]
        exact ih _ hrtrest hkrest f hf'

/-- Witness for the amended C3: sweeping `[fpsField, boolField]` over a
store holding a non-default FPS value leaves both fields reading their
defaults. -/
theorem Config_reset_defaults_reads_default_witness :
    pyEq (fpsField.read
        (reset_defaults [fpsField, boolField]
          [(("ShortcutComposer", "FPS limit"), "30")]).1)
      fpsField.default = true :=
  Config_reset_defaults_reads_default [fpsField, boolField]
    [(("ShortcutComposer", "FPS limit"), "30")]
    (by intro f hf; fin_cases hf <;> decide)
    (by decide)
    fpsField (by simp)

/-- Any rational strictly above one half rounds to at least 1. -/
theorem one_le_pyRound (q : ℚ) (h : 1/2 < q) : 1 ≤ pyRound q := by
  unfold pyRound
  rcases lt_or_le ⌊q⌋ 1 with hf | hf
  · have hf0 : ⌊q⌋ = 0 := by
      have h0 : (0:ℤ) ≤ ⌊q⌋ := Int.le_floor.mpr (by push_cast; linarith)
      omega
    rw [hf0]
    push_cast
    split_ifs with h1 h2
    · linarith
    · norm_num
    · exfalso; linarith
  · split_ifs <;> omega

/-- C7 counterexample: with a stored FPS limit of 2000,
`Config.get_sleep_time()` returns `round(1000/2000) = round(0.5) = 0`
milliseconds, which is less than the 1 ms minimum the claim asserts. -/
theorem Config_get_sleep_time_counterexample :
    get_sleep_time 2000 = 0 ∧ ¬ (1 ≤ get_sleep_time 2000) := by
  constructor <;> norm_num [get_sleep_time, pyRound]

/-- C7 amended: for every stored FPS-limit value, `Config.get_sleep_time()`
returns `round(1000/fps)` milliseconds (Python banker's rounding) and
returns 1 when the FPS limit is 0; the returned interval is at least
1 millisecond only on the range `1 ≤ fps ≤ 1999` (for fps ≥ 2000 it drops
to 0, there is no clamp in the code). -/
theorem Config_get_sleep_time_formula (fps : ℤ) :
    (fps ≠ 0 → get_sleep_time fps = pyRound ((1000 : ℚ) / fps)) ∧
    (fps = 0 → get_sleep_time fps = 1) ∧
    (1 ≤ fps → fps ≤ 1999 → 1 ≤ get_sleep_time fps) := by
  refine ⟨fun h => by simp [get_sleep_time, h],
    fun h => by simp [get_sleep_time, h], fun h1 h2 => ?_⟩
  have hne : fps ≠ 0 := by omega
  rw [get_sleep_time, if_pos hne]
  apply one_le_pyRound
  have hpos : (0:ℚ) < fps := by exact_mod_cast h1
  have hub : (fps:ℚ) ≤ 1999 := by exact_mod_cast h2
  rw [lt_div_iff₀ hpos]
  linarith

/-- Witness for the amended C7: an FPS limit of 60 yields the formula
value and an interval of at least 1 ms. -/
theorem Config_get_sleep_time_formula_witness :
    get_sleep_time 60 = pyRound ((1000 : ℚ) / 60) ∧ 1 ≤ get_sleep_time 60 :=
  ⟨(Config_get_sleep_time_formula 60).1 (by decide),
    (Config_get_sleep_time_formula 60).2.2 (by decide) (by decide)⟩

/-- C1: the claim is the intended behavior, but the code violates it.
`DoubleAxisTracker.on_every_key_release` stops both handlers yet never
stops the 50 ms decision timer (only `_start_after_picking_slider` does,
and only when it commits to a handler). So after a press with no cursor
movement and a release — a gesture the claim says degenerates to a no-op —
the decision timer keeps firing, and the first later tick that sees a
delta above 10 px starts a handler although the key is up. In the trace
press, tick(0,0), release, tick(15,3) the horizontal handler ends up
running while the key is not pressed, contradicting the class docstring
"Tracking is performed as long as the key is pressed". -/
theorem DoubleAxisTracker_handler_starts_after_release :
    DoubleAxisTracker.run DoubleAxisTracker.initial
      [.press, .tick 0 0, .release, .tick 15 3] =
      ⟨false, true, false, false⟩ := by decide

/-- Ticks do nothing once the decision timer is off. -/
theorem DoubleAxisTracker.run_ticks_timer_off (s : DoubleAxisTracker.State)
    (h : s.timer_active = false) (ps : List (ℕ × ℕ)) :
    DoubleAxisTracker.run s (ps.map fun p => .tick p.1 p.2) = s := by
  induction ps with
  | nil => rfl
  | cons p rest ih =>
    show DoubleAxisTracker.run
      (DoubleAxisTracker.step s (.tick p.1 p.2)) _ = s
    rw [show DoubleAxisTracker.step s (.tick p.1 p.2) = s by
      simp [DoubleAxisTracker.step, h]]
    exact ih

/-- C5: during the decision phase (timer active, no handler started yet),
the first tick whose deltas satisfy `max(delta_x, delta_y) > 10` starts
exactly one handler — the horizontal one iff `delta_x > delta_y`,
otherwise the vertical one — and stops the decision timer, so no later
tick of this press can start the other handler. -/
theorem DoubleAxisTracker_commits_one_handler (s : DoubleAxisTracker.State)
    (dx dy : ℕ) (hta : s.timer_active = true)
    (hh : s.horizontal_running = false) (hv : s.vertical_running = false)
    (hthr : 10 < max dx dy) :
    (DoubleAxisTracker.step s (.tick dx dy)).timer_active = false ∧
    (DoubleAxisTracker.step s (.tick dx dy)).horizontal_running =
      decide (dy < dx) ∧
    (DoubleAxisTracker.step s (.tick dx dy)).vertical_running =
      !decide (dy < dx) ∧
    ∀ ps : List (ℕ × ℕ),
      DoubleAxisTracker.run (DoubleAxisTracker.step s (.tick dx dy))
        (ps.map fun p => .tick p.1 p.2) =
        DoubleAxisTracker.step s (.tick dx dy) := by
  have hcond : ¬ (dx ≤ 10 ∧ dy ≤ 10) := by
    have := lt_max_iff.mp hthr
    omega
  have h1 : DoubleAxisTracker.step s (.tick dx dy) =
      if dy < dx then
        { s with horizontal_running := true, timer_active := false }
      else
        { s with vertical_running := true, timer_active := false } := by
    simp only [DoubleAxisTracker.step, hta, if_true,
      DoubleAxisTracker.start_after_picking_slider, if_neg hcond]
  by_cases hxy : dy < dx
  · rw [h1, if_pos hxy]
    refine ⟨rfl, by simp [hxy], by simp [hxy, hv], fun ps => ?_⟩
    exact DoubleAxisTracker.run_ticks_timer_off _ rfl ps
  · rw [h1, if_neg hxy]
    refine ⟨rfl, by simp [hxy, hh], by simp [hxy], fun ps => ?_⟩
    exact DoubleAxisTracker.run_ticks_timer_off _ rfl ps

/-- Witness for C5: right after a press, a tick with deltas (15, 3)
starts the horizontal handler, never the vertical one, stops the decision
timer, and a later huge movement changes nothing. -/
theorem DoubleAxisTracker_commits_one_handler_witness :
    (DoubleAxisTracker.step
      (DoubleAxisTracker.on_key_press DoubleAxisTracker.initial)
      (.tick 15 3)).timer_active = false ∧
    (DoubleAxisTracker.step
      (DoubleAxisTracker.on_key_press DoubleAxisTracker.initial)
      (.tick 15 3)).horizontal_running = decide (3 < 15) ∧
    (DoubleAxisTracker.step
      (DoubleAxisTracker.on_key_press DoubleAxisTracker.initial)
      (.tick 15 3)).vertical_running = !decide (3 < 15) ∧
    DoubleAxisTracker.run
      (DoubleAxisTracker.step
        (DoubleAxisTracker.on_key_press DoubleAxisTracker.initial)
        (.tick 15 3))
      ([((100 : ℕ), (100 : ℕ))].map fun p => .tick p.1 p.2) =
      DoubleAxisTracker.step
        (DoubleAxisTracker.on_key_press DoubleAxisTracker.initial)
        (.tick 15 3) := by
  have h := DoubleAxisTracker_commits_one_handler
    (DoubleAxisTracker.on_key_press DoubleAxisTracker.initial) 15 3
    rfl rfl rfl (by decide)
  exact ⟨h.1, h.2.1, h.2.2.1, h.2.2.2 [(100, 100)]⟩

/-- Iterating `up` adds `n` steps, clamped at 1. -/
theorem ActivationProgress.up_iter (s : ℚ) (hs : 0 ≤ s) (n : ℕ) (v : ℚ)
    (hv : v ≤ 1) :
    (ActivationProgress.up s)^[n] v = min (v + n * s) 1 := by
  induction n with
  | zero => simp [min_eq_left hv]
  | succ n ih =>
    rw [Function.iterate_succ_apply', ih]
    unfold ActivationProgress.up
    rcases le_total (v + n * s) 1 with h | h
    · rw [min_eq_left h]
      have harg : v + ↑n * s + s = v + (↑(n + 1)) * s := by push_cast; ring
      rw [harg]
    · rw [min_eq_right h]
      have h2 : (1:ℚ) ≤ v + (↑(n + 1)) * s := by push_cast; nlinarith
      rw [min_eq_right h2, min_eq_right (by linarith : (1:ℚ) ≤ 1 + s)]

/-- Iterating `down` subtracts `n` steps, clamped at 0. -/
theorem ActivationProgress.down_iter (s : ℚ) (hs : 0 ≤ s) (n : ℕ) (v : ℚ)
    (hv : 0 ≤ v) :
    (ActivationProgress.down s)^[n] v = max (v - n * s) 0 := by
  induction n with
  | zero => simp [max_eq_left hv]
  | succ n ih =>
    rw [Function.iterate_succ_apply', ih]
    unfold ActivationProgress.down
    rcases le_total 0 (v - n * s) with h | h
    · rw [max_eq_left h]
      have harg : v - ↑n * s - s = v - (↑(n + 1)) * s := by push_cast; ring
      rw [harg]
    · rw [max_eq_right h]
      have h2 : v - (↑(n + 1)) * s ≤ (0:ℚ) := by push_cast; nlinarith
      rw [max_eq_right h2, max_eq_right (by linarith : 0 - s ≤ (0:ℚ))]

/-- Iterating the per-label step keeps the identity and iterates `up` or
`down` on the value, per the (fixed) active label. -/
theorem LabelAnimator.label_step_iter (s : ℚ) (a : Option ℕ) (n : ℕ)
    (l : AnimLabel) :
    (LabelAnimator.label_step s a)^[n] l =
      ⟨l.id, if a = some l.id then (ActivationProgress.up s)^[n] l.value
        else (ActivationProgress.down s)^[n] l.value⟩ := by
  induction n with
  | zero => cases l; simp
  | succ n ih =>
    rw [Function.iterate_succ_apply', ih]
    by_cases h : a = some l.id
    · simp [LabelAnimator.label_step, h, Function.iterate_succ_apply']
    · simp [LabelAnimator.label_step, h, Function.iterate_succ_apply']

/-- `n` animator ticks only iterate the per-label step over the labels. -/
theorem LabelAnimator.run_eq (s : ℚ) (w : PieWidget) (n : ℕ) :
    LabelAnimator.run s w n =
      { w with labels :=
          w.labels.map ((LabelAnimator.label_step s w.active)^[n]) } := by
  induction n with
  | zero => simp [LabelAnimator.run]
  | succ n ih =>
    show (LabelAnimator.update s (LabelAnimator.run s w n)).1 = _
    rw [ih]
    simp only [LabelAnimator.update, List.map_map]
    rw [← Function.iterate_succ']

/-- The animator's stop test, as a statement about the labels. -/
theorem LabelAnimator.any_off_eq_false (ls : List AnimLabel) :
    (ls.any fun l => decide ¬(l.value = 0 ∨ l.value = 1)) = false ↔
      ∀ l ∈ ls, l.value = 0 ∨ l.value = 1 := by
  simp only [List.any_eq_false, decide_eq_true_eq, not_not]

/-- After at least `1/s` ticks with a fixed active label, every label's
progress sits exactly on a bound. -/
theorem LabelAnimator.run_at_bounds (s : ℚ) (w : PieWidget) (hs : 0 < s)
    (hrange : ∀ l ∈ w.labels, 0 ≤ l.value ∧ l.value ≤ 1) (n : ℕ)
    (hn : 1 / s ≤ (n : ℚ)) :
    ∀ l ∈ (LabelAnimator.run s w n).labels, l.value = 0 ∨ l.value = 1 := by
  have hns : (1:ℚ) ≤ n * s := by
    have := (div_le_iff₀ hs).mp hn
    linarith
  intro l hl
  rw [LabelAnimator.run_eq] at hl
  rcases List.mem_map.mp hl with ⟨l0, hl0, rfl⟩
  rcases hrange l0 hl0 with ⟨hv0, hv1⟩
  rw [LabelAnimator.label_step_iter]
  by_cases h : w.active = some l0.id
  · rw [if_pos h]
    right
    show (ActivationProgress.up s)^[n] l0.value = 1
    rw [ActivationProgress.up_iter s (le_of_lt hs) n l0.value hv1,
      min_eq_right (by linarith)]
  · rw [if_neg h]
    left
    show (ActivationProgress.down s)^[n] l0.value = 0
    rw [ActivationProgress.down_iter s (le_of_lt hs) n l0.value hv0,
      max_eq_right (by linarith)]

/-- C4: the animator tick stops its scheduler exactly when, after
stepping, every label's progress equals a bound (0 or 1) — so it keeps
running while any progress is strictly inside (0, 1) — and, with the
active label fixed, after any `n ≥ 1/step` ticks every progress sits on a
bound and the tick reports the scheduler stopped: the animation reaches a
fixed point in finitely many ticks. -/
theorem LabelAnimator_self_stops (s : ℚ) (w : PieWidget) (hs : 0 < s)
    (hrange : ∀ l ∈ w.labels, 0 ≤ l.value ∧ l.value ≤ 1) :
    ((LabelAnimator.update s w).2 = false ↔
      ∀ l ∈ (LabelAnimator.update s w).1.labels,
        l.value = 0 ∨ l.value = 1) ∧
    ∀ n : ℕ, 1 / s ≤ (n : ℚ) →
      (∀ l ∈ (LabelAnimator.run s w n).labels,
        l.value = 0 ∨ l.value = 1) ∧
      (LabelAnimator.update s (LabelAnimator.run s w n)).2 = false := by
  constructor
  · exact LabelAnimator.any_off_eq_false _
  · intro n hn
    refine ⟨LabelAnimator.run_at_bounds s w hs hrange n hn, ?_⟩
    have hn1 : 1 / s ≤ ((n + 1 : ℕ) : ℚ) := by push_cast; linarith
    have hb := LabelAnimator.run_at_bounds s w hs hrange (n + 1) hn1
    have heq : (LabelAnimator.update s (LabelAnimator.run s w n)).2 =
        ((LabelAnimator.run s w (n + 1)).labels.any
          fun l => decide ¬(l.value = 0 ∨ l.value = 1)) := rfl
    rw [heq, LabelAnimator.any_off_eq_false]
    exact hb

/-- Sample pie widget for the animator witness: label 0 active at rest,
label 1 half-lit. -/
def sampleWidget : PieWidget := ⟨true, some 0, 0, [⟨0, 0⟩, ⟨1, 1/2⟩]⟩

/-- Witness for C4: with step 1, one tick drives the sample widget's
labels to their bounds and the next tick reports the scheduler stopped. -/
theorem LabelAnimator_self_stops_witness :
    (LabelAnimator.update 1 (LabelAnimator.run 1 sampleWidget 1)).2 = false :=
  ((LabelAnimator_self_stops 1 sampleWidget (by norm_num)
    (by intro l hl
        fin_cases hl <;> constructor <;> norm_num)).2 1 (by norm_num)).2

/-- C8: whenever the pie widget is visible and the cursor's distance from
the pie center is strictly below the widget's deadzone radius (stated on
squares, which is equivalent for a nonnegative radius), the cursor
handling tick sets the active label to `None` — for every cursor position
and independently of any angle computation. -/
theorem PieManager_deadzone_clears_active (w : PieWidget)
    (center cursor : ℚ × ℚ) (angle_from_point : ℚ × ℚ → ℚ)
    (on_angle : ℚ → ℕ) (hvis : w.visible = true)
    (hdz : PieManager.distSq cursor center < w.deadzone ^ 2) :
    (PieManager.handle_cursor w center cursor
      angle_from_point on_angle).widget.active = none := by
  unfold PieManager.handle_cursor
  rw [hvis]
  simp only [Bool.true_eq_false, if_false, if_pos hdz]
  unfold PieManager.set_active_label
  by_cases h : w.active = none
  · rw [if_neg (by simpa using h)]
    exact h
  · rw [if_pos (by simpa using h)]

/-- Witness for C8: a visible widget with active label 3, deadzone 10, and
the cursor 1 unit diagonally off-center ends with no active label. -/
theorem PieManager_deadzone_clears_active_witness :
    (PieManager.handle_cursor ⟨true, some 3, 10, []⟩ (0, 0) (1, 1)
      (fun _ => 0) (fun _ => 7)).widget.active = none :=
  PieManager_deadzone_clears_active ⟨true, some 3, 10, []⟩ (0, 0) (1, 1)
    (fun _ => 0) (fun _ => 7) rfl (by norm_num [PieManager.distSq])

/-- C9: `PresetController.get_label` is total — a preset name absent from
the host's catalog yields `None` (the `KeyError` is caught, nothing is
raised), and a present name yields the preset's image as a pixmap. -/
theorem PresetController_get_label_total
    (presets : List (String × KritaPreset)) (value : String) :
    ((∀ p ∈ presets, p.1 ≠ value) →
      PresetController.get_label presets value = none) ∧
    (∀ nm pr, presets.find? (fun p => p.1 = value) = some (nm, pr) →
      PresetController.get_label presets value =
        some (QPixmap.fromImage pr.image)) := by
  constructor
  · intro h
    have hfind : presets.find? (fun p => p.1 = value) = none := by
      rw [List.find?_eq_none]
      intro p hp
      simpa using h p hp
    unfold PresetController.get_label
    rw [hfind]
    rfl
  · intro nm pr h
    unfold PresetController.get_label
    rw [h]
    rfl

/-- Witness for C9: in a one-entry catalog, the unknown name `"missing"`
yields `None` and the known name `"b) Basic-5 Size Opacity"` yields its
image as a pixmap. -/
theorem PresetController_get_label_total_witness :
    PresetController.get_label [("b) Basic-5 Size Opacity", ⟨⟨5⟩⟩)]
      "missing" = none ∧
    PresetController.get_label [("b) Basic-5 Size Opacity", ⟨⟨5⟩⟩)]
      "b) Basic-5 Size Opacity" = some (QPixmap.fromImage ⟨5⟩) := by
  constructor
  · exact (PresetController_get_label_total
      [("b) Basic-5 Size Opacity", ⟨⟨5⟩⟩)] "missing").1
      (by intro p hp; fin_cases hp; decide)
  · exact (PresetController_get_label_total
      [("b) Basic-5 Size Opacity", ⟨⟨5⟩⟩)] "b) Basic-5 Size Opacity").2
      "b) Basic-5 Size Opacity" ⟨⟨5⟩⟩ (by decide)

/-- C10: every `UndoController.set_value(v)` call moves the remembered
undo-stack position by at most one: when `round(v)` equals the position
nothing is triggered and the position is unchanged; when it is greater,
exactly one `edit_redo` fires and the position grows by one; when it is
smaller, exactly one `edit_undo` fires and the position shrinks by one —
even when `round(v)` is many steps away. -/
theorem UndoController_set_value_step (value : ℚ) (state : ℤ) :
    |(UndoController.set_value value state).1 - state| ≤ 1 ∧
    (UndoController.set_value value state).2.length ≤ 1 ∧
    (pyRound value = state →
      UndoController.set_value value state = (state, [])) ∧
    (state < pyRound value →
      UndoController.set_value value state = (state + 1, ["edit_redo"])) ∧
    (pyRound value < state →
      UndoController.set_value value state = (state - 1, ["edit_undo"])) := by
  unfold UndoController.set_value
  rcases lt_trichotomy (pyRound value) state with h | h | h
  · rw [if_neg (by omega), if_neg (by omega)]
    refine ⟨by simp, by simp, fun he => absurd he (by omega),
      fun hg => absurd hg (by omega), fun _ => rfl⟩
  · rw [if_pos h]
    refine ⟨by simp, by simp, fun _ => rfl,
      fun hg => absurd hg (by omega), fun hl => absurd hl (by omega)⟩
  · rw [if_neg (by omega), if_pos (by omega)]
    refine ⟨by simp, by simp, fun he => absurd he (by omega),
      fun _ => rfl, fun hl => absurd hl (by omega)⟩

/-- Witness for C10: asking for position 5 from position 2 triggers a
single redo and moves the position to 3 only. -/
theorem UndoController_set_value_step_witness :
    UndoController.set_value 5 2 = (3, ["edit_redo"]) :=
  (UndoController_set_value_step 5 2).2.2.2.1
    (by norm_num [pyRound])
